import Mathlib

/-!
Verification of the mpi_futures request scheduler.

This file gives a shallow embedding of the core of the library: the
request pool (src/request_poll.rs), the switch and link (src/switch.rs),
the incoming stream and future buffer (src/incoming.rs), the send future
(src/send.rs) and the trivial byte codec (src/codec.rs).

Modelling conventions:
- Native MPI request handles and completion callbacks are opaque values,
  represented by natural numbers.  Closures are not observable, so a
  callback is identified by its id; invoking it is recorded in a trace.
- The native test-some / wait-some primitive is modelled by an oracle:
  the list of completed indices it chose to return.
- Fallible or aborting paths (MPI_Abort, panics, out-of-range index reads)
  are modelled by Option, with none meaning the process dies.
- The futures-0.1 polling protocol is modelled by explicit result types;
  the uninhabited error type Void of the Rust code becomes Empty.
-/

set_option autoImplicit false

universe u

/-- Result of polling a futures-0.1 future: ready with a value, or not ready. -/
inductive Async (α : Type u) : Type u
  | ready (a : α)
  | notReady
deriving DecidableEq

/-- Result of polling a futures-0.1 one-shot receiver whose sender may have
been dropped: either a normal poll result, or the cancellation error. -/
inductive OneshotPoll (α : Type u) : Type u
  | polled (a : Async α)
  | canceled
deriving DecidableEq

/-- Result of polling a futures-0.1 stream: an item, end-of-stream (ready
none), or not ready. -/
inductive StreamPoll (α : Type u) : Type u
  | ready (item : Option α)
  | notReady
deriving DecidableEq

/-- Result of polling a future that may panic (model of FutureBuffer). -/
inductive FuturePoll (α : Type u) : Type u
  | ok (a : Async α)
  | panicked (msg : String)
deriving DecidableEq

/-- State of a RequestPoll (request_poll.rs): three parallel vectors
(requests, cancelables, callbacks) sharing one indexing, plus the cached
vector of completed indices returned by the last native test/wait call. -/
structure RequestPoll where
  requests : List Nat
  cancelables : List Bool
  callbacks : List Nat
  indices : List Nat
deriving DecidableEq, Inhabited

/-- Model of RequestPoll::insert: push the request, its cancelable flag and
its boxed callback onto the three parallel vectors. -/
def RequestPoll.insert (p : RequestPoll) (request : Nat) (callback : Nat)
    (cancelable : Bool) : RequestPoll :=
  { p with
    requests := p.requests ++ [request]
    cancelables := p.cancelables ++ [cancelable]
    callbacks := p.callbacks ++ [callback] }

/-- Model of RequestPoll::mrecv: post a matched receive; the entry is marked
cancelable. -/
def RequestPoll.mrecv (p : RequestPoll) (request callback : Nat) :
    RequestPoll :=
  p.insert request callback true

/-- Model of RequestPoll::send.  In the Rust source the tag parameter has
type u16, so a tag above 0xFFFF can never reach the native send; the static
bound is modelled as a dynamic guard that fails (MPI tags above the
guaranteed MPI_TAG_UB minimum are rejected before anything is posted).
The entry is marked not cancelable. -/
def RequestPoll.send (p : RequestPoll) (tag : Nat) (request callback : Nat) :
    Except String RequestPoll :=
  if tag < 65536 then Except.ok (p.insert request callback false)
  else Except.error "tag out of 16-bit range"

/-- Model of Vec::swap_remove at index i: overwrite slot i with the last
element and drop the last slot.  Out-of-range indices make Rust panic,
modelled by none. -/
def swapRemove {α : Type u} (l : List α) (i : Nat) : Option (List α) :=
  if h : i < l.length then
    some ((l.set i
      (l.getLast
        (List.ne_nil_of_length_pos (Nat.lt_of_le_of_lt (Nat.zero_le i) h)))).dropLast)
  else none

/-- Apply swap_remove for each index of idxs in order, failing if any index
is out of range at the moment it is removed. -/
def swapRemoveAll {α : Type u} (l : List α) (idxs : List Nat) :
    Option (List α) :=
  List.foldlM swapRemove l idxs

/-- Read the callback at each completed index, in the order the indices were
returned by the native layer; an out-of-range index would be undefined
behaviour in the Rust source, modelled by none. -/
def readCallbacks (callbacks : List Nat) : List Nat → Option (List Nat)
  | [] => some []
  | i :: rest => do
    let c ← callbacks[i]?
    let cs ← readCallbacks callbacks rest
    pure (c :: cs)

/-- Model of RequestPoll::flush.  Phase one invokes the callbacks at the
completed indices in the order the native layer returned them; the returned
trace lists the invoked callback ids in invocation order.  Phase two sorts
the completed indices ascending and drains them in reverse (descending),
swap-removing each slot from the three parallel vectors componentwise. -/
def RequestPoll.flush (p : RequestPoll) : Option (List Nat × RequestPoll) := do
  let trace ← readCallbacks p.callbacks p.indices
  let desc := (List.insertionSort (· ≤ ·) p.indices).reverse
  let requests ← swapRemoveAll p.requests desc
  let cancelables ← swapRemoveAll p.cancelables desc
  let callbacks ← swapRemoveAll p.callbacks desc
  pure (trace,
    { requests := requests, cancelables := cancelables,
      callbacks := callbacks, indices := [] })

/-- Model of RequestPoll::poll_with.  If the request vector is empty the
native call is skipped entirely.  Otherwise the usize request count is
converted to a c_int (panic, i.e. none, if it does not fit) and the native
test/wait-some fills the indices cache with the completed indices chosen by
the oracle.  The Bool records whether the native call was performed. -/
def RequestPoll.pollWith (p : RequestPoll) (native : List Nat) :
    Option (RequestPoll × Bool) :=
  if p.requests.isEmpty then some (p, false)
  else if p.requests.length ≤ 2147483647 then
    some ({ p with indices := native }, true)
  else none

/-- Model of RequestPoll::test: one MPI_Testsome sweep followed by flush. -/
def RequestPoll.test (p : RequestPoll) (native : List Nat) :
    Option (List Nat × RequestPoll × Bool) := do
  let pc ← p.pollWith native
  let tp ← pc.1.flush
  pure (tp.1, tp.2, pc.2)

/-- Model of RequestPoll::wait: one MPI_Waitsome sweep followed by flush;
apart from blocking it is identical to test. -/
def RequestPoll.wait (p : RequestPoll) (native : List Nat) :
    Option (List Nat × RequestPoll × Bool) := do
  let pc ← p.pollWith native
  let tp ← pc.1.flush
  pure (tp.1, tp.2, pc.2)

/-- The three parallel vectors have equal length (shared indexing). -/
def RequestPoll.synced (p : RequestPoll) : Prop :=
  p.requests.length = p.cancelables.length ∧
  p.cancelables.length = p.callbacks.length

instance (p : RequestPoll) : Decidable p.synced := by
  unfold RequestPoll.synced; infer_instance

/-- Well-formed pool state between operations: parallel vectors synced and
the completed-indices cache drained. -/
def RequestPoll.wf (p : RequestPoll) : Prop :=
  p.synced ∧ p.indices = []

instance (p : RequestPoll) : Decidable p.wf := by
  unfold RequestPoll.wf; infer_instance

/-- One public operation on the pool, with the validity guarantees MPI gives
for the completed indices returned by test/wait-some (distinct valid indices
into the request array). -/
inductive RequestPoll.Step : RequestPoll → RequestPoll → Prop
  | insert (p : RequestPoll) (request callback : Nat) (cancelable : Bool) :
      Step p (p.insert request callback cancelable)
  | mrecv (p : RequestPoll) (request callback : Nat) :
      Step p (p.mrecv request callback)
  | send (p p2 : RequestPoll) (tag request callback : Nat)
      (h : p.send tag request callback = Except.ok p2) : Step p p2
  | test (p p2 : RequestPoll) (native trace : List Nat) (called : Bool)
      (hnd : native.Nodup) (hlt : ∀ i ∈ native, i < p.requests.length)
      (h : p.test native = some (trace, p2, called)) : Step p p2
  | wait (p p2 : RequestPoll) (native trace : List Nat) (called : Bool)
      (hnd : native.Nodup) (hlt : ∀ i ∈ native, i < p.requests.length)
      (h : p.wait native = some (trace, p2, called)) : Step p p2

/-- Inner state of a Switch (switch.rs): the request pool and the stop
flag. -/
structure SwitchInner where
  request_poll : RequestPoll
  stop : Bool
deriving DecidableEq, Inhabited

/-- Model of Link::close.  A Link is a weak reference, modelled as
Option SwitchInner: none when the Switch has been dropped.  close sets the
stop flag when the upgrade succeeds and does nothing otherwise. -/
def Link.close (w : Option SwitchInner) : Option SwitchInner :=
  match w with
  | none => none
  | some inner => some { inner with stop := true }

/-- Model of Switch::poll.  If stop is set the future resolves; otherwise it
runs one request_poll.test sweep, re-arms its own task (park().unpark(),
recorded by the Bool) and yields not-ready.  The error type E is never
produced.  none models a process abort inside the sweep. -/
def Switch.poll (inner : SwitchInner) (native : List Nat) :
    Option (Except Empty (Async Unit) × SwitchInner × Bool) :=
  if inner.stop then some (Except.ok (Async.ready ()), inner, false)
  else
    match inner.request_poll.test native with
    | none => none
    | some (_, p2, _) =>
      some (Except.ok Async.notReady,
        { request_poll := p2, stop := false }, true)

/-- Model of an MPI status: only the element count matters here. -/
structure Status where
  count : Nat
deriving DecidableEq, Inhabited

/-- Result of Source::immediate_matched_probe: no matching message, or a
matched message handle with its status. -/
inductive Probe : Type
  | noMatch
  | matched (msg : Nat) (status : Status)
deriving DecidableEq

/-- Model of Incoming::poll (incoming.rs).  The weak link is upgraded first:
if the Switch is gone the stream ends (ready none).  Otherwise a matched
probe posts a matched receive into the pool (the fresh request handle and
callback id are supplied by the environment) and yields the status; with no
match the task is re-armed (Bool) and the stream is not ready. -/
def Incoming.poll (w : Option SwitchInner) (probe : Probe)
    (request callback : Nat) :
    StreamPoll Status × Option SwitchInner × Bool :=
  match w with
  | none => (StreamPoll.ready none, none, false)
  | some inner =>
    match probe with
    | Probe.matched _ status =>
      (StreamPoll.ready (some status),
        some { inner with
          request_poll := inner.request_poll.mrecv request callback },
        false)
    | Probe.noMatch => (StreamPoll.notReady, some inner, true)

/-- Model of FutureBuffer::poll (incoming.rs): polling the one-shot panics
with "sender cancelled" when the sender was dropped, and otherwise forwards
the result. -/
def FutureBuffer.poll {α : Type u} (r : OneshotPoll α) : FuturePoll α :=
  match r with
  | OneshotPoll.canceled => FuturePoll.panicked "sender cancelled"
  | OneshotPoll.polled a => FuturePoll.ok a

/-- States of the Send future (send.rs); the one-shot receiver held by
Started is modelled separately by the OneshotPoll oracle. -/
inductive SendState : Type
  | pending
  | started
  | invalid
deriving DecidableEq

/-- Model of the local poll_receiver helper in Send::poll: a cancelled
one-shot (sender dropped without sending) is treated as success. -/
def poll_receiver (r : OneshotPoll Unit) : Except Empty (Async Unit) :=
  match r with
  | OneshotPoll.canceled => Except.ok (Async.ready ())
  | OneshotPoll.polled a => Except.ok a

/-- Model of Send::poll.  A Pending future whose Switch is gone resolves
immediately with no effect.  With a live Switch, encoding posts the send
into the pool (tag supplied by the codec; fresh request handle and callback
id from the environment) and the freshly created receiver polls not-ready
since its sender is alive inside the pool callback.  A Started future
delegates to the one-shot via poll_receiver.  An Invalid future panics
(none); an out-of-range tag aborts (none). -/
def Send.poll (st : SendState) (w : Option SwitchInner) (tag : Nat)
    (request callback : Nat) (oneshot : OneshotPoll Unit) :
    Option (Except Empty (Async Unit) × SendState × Option SwitchInner) :=
  match st with
  | SendState.pending =>
    match w with
    | none => some (Except.ok (Async.ready ()), SendState.invalid, none)
    | some inner =>
      match inner.request_poll.send tag request callback with
      | Except.error _ => none
      | Except.ok p2 =>
        some (Except.ok Async.notReady, SendState.started,
          some { inner with request_poll := p2 })
  | SendState.started => some (poll_receiver oneshot, SendState.invalid, w)
  | SendState.invalid => none

/-- Model of U8Codec::encode (codec.rs): submit exactly the message bytes
with tag zero. -/
def U8Codec.encode (msg : List Nat) : List Nat × Nat :=
  (msg, 0)

/-- Model of the buffer allocation in U8Codec::decode: a vector of exactly
status.count elements (the contents are uninitialized; only the length is
meaningful, zeros stand for the arbitrary initial bytes). -/
def U8Codec.decodeBuf (status : Status) : List Nat :=
  List.replicate status.count 0

/-- Faithful transport: the matched receive fills the posted buffer with the
bytes of the transmitted message when the sizes agree. -/
def recvFill (buf sent : List Nat) : List Nat :=
  if sent.length = buf.length then sent else buf

/-- Encode a message through U8Codec, carry its length in the status of the
probed match, allocate the receive buffer via U8Codec::decode, and fill it
from the transport. -/
def u8Roundtrip (msg : List Nat) : List Nat :=
  let enc := U8Codec.encode msg
  let status : Status := { count := enc.1.length }
  recvFill (U8Codec.decodeBuf status) enc.1

example : u8Roundtrip [3, 1, 4] = [3, 1, 4] := by decide

example : swapRemove [10, 20, 30] 0 = some [30, 20] := by decide

example : RequestPoll.flush ⟨[100, 101, 102], [true, false, true],
    [10, 20, 30], [2, 0]⟩ =
    some ([30, 10], ⟨[101], [false], [20], []⟩) := by decide

theorem swapRemove_length {α : Type u} {l m : List α} {i : Nat}
    (h : swapRemove l i = some m) : m.length = l.length - 1 := by
  unfold swapRemove at h
  split at h
  · cases h
    simp
  · cases h

theorem swapRemove_isSome {α : Type u} (l : List α) (i : Nat)
    (h : i < l.length) : ∃ m, swapRemove l i = some m := by
  unfold swapRemove
  rw [dif_pos h]
  exact ⟨_, rfl⟩

theorem swapRemoveAll_length {α : Type u} :
    ∀ (idxs : List Nat) (l : List α), idxs.Sorted (· > ·) →
    (∀ i ∈ idxs, i < l.length) →
    ∃ m, swapRemoveAll l idxs = some m ∧
      m.length = l.length - idxs.length := by
  intro idxs
  induction idxs with
  | nil => exact fun l _ _ => ⟨l, rfl, by simp⟩
  | cons i rest ih =>
    intro l hs hlt
    have hi : i < l.length := hlt i (List.mem_cons_self i rest)
    obtain ⟨m1, hm1⟩ := swapRemove_isSome l i hi
    have hm1len : m1.length = l.length - 1 := swapRemove_length hm1
    have hlt2 : ∀ j ∈ rest, j < m1.length := by
      intro j hj
      have hji : i > j := List.rel_of_sorted_cons hs j hj
      omega
    obtain ⟨m, hm, hlen⟩ := ih m1 hs.of_cons hlt2
    refine ⟨m, ?_, by simp; omega⟩
    simpa [swapRemoveAll, List.foldlM_cons, hm1] using hm

theorem readCallbacks_eq_map {l : List Nat} (d : Nat) :
    ∀ idxs : List Nat, (∀ i ∈ idxs, i < l.length) →
    readCallbacks l idxs = some (idxs.map (fun i => l.getD i d)) := by
  intro idxs
  induction idxs with
  | nil => intro _; rfl
  | cons i rest ih =>
    intro h
    have hi : i < l.length := h i (List.mem_cons_self i rest)
    have hrest := ih (fun j hj => h j (List.mem_cons_of_mem i hj))
    simp [readCallbacks, hrest, List.getElem?_eq_getElem hi,
      List.getD_eq_getElem?_getD]

theorem flush_eq (p : RequestPoll)
    (hnd : p.indices.Nodup)
    (hlt : ∀ i ∈ p.indices, i < p.requests.length)
    (hsync : p.synced) :
    ∃ p2, p.flush = some
        (p.indices.map (fun i => p.callbacks.getD i 0), p2) ∧
      p2.requests.length = p.requests.length - p.indices.length ∧
      p2.cancelables.length = p.cancelables.length - p.indices.length ∧
      p2.callbacks.length = p.callbacks.length - p.indices.length ∧
      p2.indices = [] := by
  obtain ⟨h1, h2⟩ := hsync
  have hperm : (List.insertionSort (· ≤ ·) p.indices).Perm p.indices :=
    List.perm_insertionSort _ _
  have hmemr : ∀ i ∈ (List.insertionSort (· ≤ ·) p.indices).reverse,
      i < p.requests.length := by
    intro i hi
    exact hlt i (hperm.mem_iff.mp (List.mem_reverse.mp hi))
  have hsorted_le : (List.insertionSort (· ≤ ·) p.indices).Sorted (· ≤ ·) :=
    List.sorted_insertionSort _ _
  have hnodup : (List.insertionSort (· ≤ ·) p.indices).Nodup :=
    hperm.nodup_iff.mpr hnd
  have hsorted_gt :
      ((List.insertionSort (· ≤ ·) p.indices).reverse).Sorted (· > ·) := by
    exact List.pairwise_reverse.mpr (hsorted_le.lt_of_le hnodup)
  have hdlen : ((List.insertionSort (· ≤ ·) p.indices).reverse).length =
      p.indices.length := by
    simp [hperm.length_eq]
  have htrace := readCallbacks_eq_map (l := p.callbacks) 0 p.indices
    (fun i hi => by rw [← h2, ← h1]; exact hlt i hi)
  obtain ⟨mr, hmr, hmrlen⟩ :=
    swapRemoveAll_length ((List.insertionSort (· ≤ ·) p.indices).reverse)
      p.requests hsorted_gt hmemr
  obtain ⟨mc, hmc, hmclen⟩ :=
    swapRemoveAll_length ((List.insertionSort (· ≤ ·) p.indices).reverse)
      p.cancelables hsorted_gt (fun i hi => by rw [← h1]; exact hmemr i hi)
  obtain ⟨mb, hmb, hmblen⟩ :=
    swapRemoveAll_length ((List.insertionSort (· ≤ ·) p.indices).reverse)
      p.callbacks hsorted_gt (fun i hi => by rw [← h2, ← h1]; exact hmemr i hi)
  refine ⟨⟨mr, mc, mb, []⟩, ?_, ?_, ?_, ?_, rfl⟩
  · simp [RequestPoll.flush, htrace, hmr, hmc, hmb]
  · rw [hmrlen, hdlen]
  · rw [hmclen, hdlen]
  · rw [hmblen, hdlen]

theorem wait_eq_test (p : RequestPoll) (native : List Nat) :
    p.wait native = p.test native := rfl

theorem test_empty (p : RequestPoll) (native : List Nat)
    (hreq : p.requests = []) (hidx : p.indices = []) :
    p.test native = some ([], p, false) := by
  obtain ⟨req, canc, cb, idx⟩ := p
  simp only at hreq hidx
  subst hreq hidx
  simp [RequestPoll.test, RequestPoll.pollWith, RequestPoll.flush,
    readCallbacks, swapRemoveAll]

theorem test_nonempty (p : RequestPoll) (native : List Nat)
    (hreq : p.requests ≠ []) (hcnt : p.requests.length ≤ 2147483647)
    (hnd : native.Nodup) (hlt : ∀ i ∈ native, i < p.requests.length)
    (hsync : p.synced) :
    ∃ p2, p.test native =
        some (native.map (fun i => p.callbacks.getD i 0), p2, true) ∧
      p2.requests.length = p.requests.length - native.length ∧
      p2.cancelables.length = p.cancelables.length - native.length ∧
      p2.callbacks.length = p.callbacks.length - native.length ∧
      p2.indices = [] := by
  have hpoll : p.pollWith native = some ({ p with indices := native }, true) := by
    simp [RequestPoll.pollWith, hreq, hcnt]
  obtain ⟨p2, hf, hr, hc, hb, hi⟩ :=
    flush_eq { p with indices := native } hnd hlt hsync
  exact ⟨p2, by simp [RequestPoll.test, hpoll, hf], hr, hc, hb, hi⟩

theorem insertionSort_reverse_sorted_gt {idxs : List Nat} (hnd : idxs.Nodup) :
    ((List.insertionSort (· ≤ ·) idxs).reverse).Sorted (· > ·) :=
  List.pairwise_reverse.mpr
    ((List.sorted_insertionSort _ idxs).lt_of_le
      ((List.perm_insertionSort _ idxs).nodup_iff.mpr hnd))

/-- Claim C1: in a completion sweep the flush phase invokes the completion
callback of each completed index exactly once, in the order the native layer
returned the indices (the trace equals the callback vector mapped over the
duplicate-free returned index list); afterwards the completed slots are
swap-removed from requests, cancelables and callbacks in descending index
order (the drained list is sorted strictly descending), and every removal is
in bounds at the moment it happens: the flush succeeds, shrinking each of
the three vectors by exactly the number of completed indices. -/
theorem flush_callback_order_and_descending_compaction (p : RequestPoll)
    (hnd : p.indices.Nodup)
    (hlt : ∀ i ∈ p.indices, i < p.requests.length)
    (hsync : p.synced) :
    ((List.insertionSort (· ≤ ·) p.indices).reverse).Sorted (· > ·) ∧
    ∃ p2, p.flush = some
        (p.indices.map (fun i => p.callbacks.getD i 0), p2) ∧
      p2.requests.length = p.requests.length - p.indices.length ∧
      p2.cancelables.length = p.cancelables.length - p.indices.length ∧
      p2.callbacks.length = p.callbacks.length - p.indices.length ∧
      p2.indices = [] :=
  ⟨insertionSort_reverse_sorted_gt hnd, flush_eq p hnd hlt hsync⟩

theorem flush_callback_order_witness :
    ∃ p2, RequestPoll.flush
        ⟨[100, 101, 102], [true, false, true], [10, 20, 30], [2, 0]⟩ =
      some ([30, 10], p2) ∧ p2.requests.length = 1 ∧
      p2.cancelables.length = 1 ∧ p2.callbacks.length = 1 ∧
      p2.indices = [] := by
  have h := flush_callback_order_and_descending_compaction
    ⟨[100, 101, 102], [true, false, true], [10, 20, 30], [2, 0]⟩
    (by decide) (by decide) (by decide)
  simpa using h.2

/-- Claim C2 counterexample: after Link::close on a still-live Switch the
shutdown flag is set, yet the next poll of the incoming stream does not emit
end-of-stream: with no probe match it yields not-ready, and with a match it
even posts a further receive into the pool. -/
theorem incoming_close_counterexample :
    (Incoming.poll (Link.close (some ⟨⟨[], [], [], []⟩, false⟩))
        Probe.noMatch 0 0).1 ≠ StreamPoll.ready none ∧
    (Incoming.poll (Link.close (some ⟨⟨[], [], [], []⟩, false⟩))
        Probe.noMatch 0 0).1 = StreamPoll.notReady ∧
    (Incoming.poll (Link.close (some ⟨⟨[], [], [], []⟩, false⟩))
        (Probe.matched 3 ⟨5⟩) 8 9).2.1 =
      some ⟨⟨[8], [true], [9], []⟩, true⟩ := by decide

/-- Claim C2 amended: the incoming stream emits end-of-stream exactly when
the Switch itself is gone (the weak link fails to upgrade, which happens
once the closed Switch future has resolved and been dropped); setting the
shutdown flag via Link::close does not by itself end the stream. -/
theorem incoming_eos_when_switch_gone (probe : Probe)
    (request callback : Nat) :
    Incoming.poll none probe request callback =
      (StreamPoll.ready none, none, false) := rfl

/-- Claim C3: tags are constrained to the 16-bit unsigned range (enforced in
the Rust source by the u16 parameter type, modelled as a guard); a tag above
0xFFFF fails deterministically at send time, before any native send request
is posted, and a tag in range posts the send (marked not cancelable). -/
theorem send_tag_16bit_guard (p : RequestPoll) (tag request callback : Nat) :
    (tag > 0xFFFF → p.send tag request callback =
      Except.error "tag out of 16-bit range") ∧
    (tag ≤ 0xFFFF → p.send tag request callback =
      Except.ok (p.insert request callback false)) := by
  refine ⟨fun h => ?_, fun h => ?_⟩
  · unfold RequestPoll.send; rw [if_neg (by omega)]
  · unfold RequestPoll.send; rw [if_pos (by omega)]

theorem send_tag_16bit_guard_witness :
    RequestPoll.send ⟨[], [], [], []⟩ 65536 0 0 =
      Except.error "tag out of 16-bit range" ∧
    RequestPoll.send ⟨[], [], [], []⟩ 0 1 2 =
      Except.ok (RequestPoll.insert ⟨[], [], [], []⟩ 1 2 false) :=
  ⟨(send_tag_16bit_guard ⟨[], [], [], []⟩ 65536 0 0).1 (by decide),
   (send_tag_16bit_guard ⟨[], [], [], []⟩ 0 1 2).2 (by decide)⟩

/-- Claim C4: Send::poll never yields an error (its error type is
uninhabited); a first poll that finds the Switch gone resolves ready with no
request posted and no other effect, and a Started poll whose one-shot
reports cancellation (sender dropped without sending) also resolves ready. -/
theorem send_poll_never_errors_and_benign (tag request callback : Nat)
    (w : Option SwitchInner) (oneshot : OneshotPoll Unit) :
    (∀ st r s w2, Send.poll st w tag request callback oneshot =
        some (r, s, w2) → ∃ a, r = Except.ok a) ∧
    Send.poll SendState.pending none tag request callback oneshot =
      some (Except.ok (Async.ready ()), SendState.invalid, none) ∧
    Send.poll SendState.started w tag request callback OneshotPoll.canceled =
      some (Except.ok (Async.ready ()), SendState.invalid, w) := by
  refine ⟨?_, rfl, rfl⟩
  intro st r s w2 _
  cases r with
  | ok a => exact ⟨a, rfl⟩
  | error e => exact e.elim

theorem send_poll_never_errors_witness :
    ∃ a, (Except.ok (Async.ready ()) : Except Empty (Async Unit)) =
      Except.ok a :=
  (send_poll_never_errors_and_benign 0 0 0 none OneshotPoll.canceled).1
    SendState.pending (Except.ok (Async.ready ())) SendState.invalid none rfl

/-- Claim C5: every pool operation (insert, mrecv, send, and the completion
sweeps test and wait under the MPI guarantee that the returned completed
indices are distinct and in range) preserves the invariant that requests,
cancelables and callbacks have equal length with a shared indexing and the
completed-indices cache is drained; completions remove their slots from all
three vectors, leaving no empty slots. -/
theorem step_preserves_parallel_invariant (p p2 : RequestPoll)
    (h : p.Step p2) (hwf : p.wf) : p2.wf := by
  obtain ⟨⟨h1, h2⟩, hidx⟩ := hwf
  cases h with
  | insert request callback cancelable =>
    exact ⟨⟨by simp [RequestPoll.insert, h1],
      by simp [RequestPoll.insert, h2]⟩, by simp [RequestPoll.insert, hidx]⟩
  | mrecv request callback =>
    exact ⟨⟨by simp [RequestPoll.mrecv, RequestPoll.insert, h1],
      by simp [RequestPoll.mrecv, RequestPoll.insert, h2]⟩,
      by simp [RequestPoll.mrecv, RequestPoll.insert, hidx]⟩
  | send _ tag request callback hsend =>
    unfold RequestPoll.send at hsend
    split at hsend
    · cases hsend
      exact ⟨⟨by simp [RequestPoll.insert, h1],
        by simp [RequestPoll.insert, h2]⟩, by simp [RequestPoll.insert, hidx]⟩
    · cases hsend
  | test _ native trace called hnd hlt htest =>
    by_cases hreq : p.requests = []
    · rw [test_empty p native hreq hidx] at htest
      simp only [Option.some.injEq, Prod.mk.injEq] at htest
      obtain ⟨-, hp2, -⟩ := htest
      subst hp2
      exact ⟨⟨h1, h2⟩, hidx⟩
    · by_cases hcnt : p.requests.length ≤ 2147483647
      · obtain ⟨q, hq, hr, hc, hb, hi⟩ :=
          test_nonempty p native hreq hcnt hnd hlt ⟨h1, h2⟩
        rw [hq] at htest
        simp only [Option.some.injEq, Prod.mk.injEq] at htest
        obtain ⟨-, hp2, -⟩ := htest
        subst hp2
        exact ⟨⟨by omega, by omega⟩, hi⟩
      · have hnone : p.test native = none := by
          simp [RequestPoll.test, RequestPoll.pollWith, hreq, hcnt]
        rw [hnone] at htest
        cases htest
  | wait _ native trace called hnd hlt hwait =>
    rw [wait_eq_test] at hwait
    by_cases hreq : p.requests = []
    · rw [test_empty p native hreq hidx] at hwait
      simp only [Option.some.injEq, Prod.mk.injEq] at hwait
      obtain ⟨-, hp2, -⟩ := hwait
      subst hp2
      exact ⟨⟨h1, h2⟩, hidx⟩
    · by_cases hcnt : p.requests.length ≤ 2147483647
      · obtain ⟨q, hq, hr, hc, hb, hi⟩ :=
          test_nonempty p native hreq hcnt hnd hlt ⟨h1, h2⟩
        rw [hq] at hwait
        simp only [Option.some.injEq, Prod.mk.injEq] at hwait
        obtain ⟨-, hp2, -⟩ := hwait
        subst hp2
        exact ⟨⟨by omega, by omega⟩, hi⟩
      · have hnone : p.test native = none := by
          simp [RequestPoll.test, RequestPoll.pollWith, hreq, hcnt]
        rw [hnone] at hwait
        cases hwait

theorem step_preserves_parallel_invariant_witness :
    (RequestPoll.insert ⟨[], [], [], []⟩ 5 7 true).wf :=
  step_preserves_parallel_invariant ⟨[], [], [], []⟩ _
    (RequestPoll.Step.insert ⟨[], [], [], []⟩ 5 7 true) (by decide)

/-- Claim C6: polling the Switch resolves ready when the shutdown flag is
set; otherwise it performs exactly one pool.test completion sweep, re-arms
its own task (the Bool component is true) and yields not-ready; and it never
yields an error (under the MPI guarantee of distinct in-range completed
indices, a drained well-formed pool, and a request count within c_int). -/
theorem switch_poll_spec (inner : SwitchInner) (native : List Nat)
    (hnd : native.Nodup)
    (hlt : ∀ i ∈ native, i < inner.request_poll.requests.length)
    (hwf : inner.request_poll.wf)
    (hcnt : inner.request_poll.requests.length ≤ 2147483647) :
    (inner.stop = true → Switch.poll inner native =
      some (Except.ok (Async.ready ()), inner, false)) ∧
    (inner.stop = false → ∃ trace p2 called,
      inner.request_poll.test native = some (trace, p2, called) ∧
      Switch.poll inner native =
        some (Except.ok Async.notReady, ⟨p2, false⟩, true)) ∧
    (∀ r s b, Switch.poll inner native = some (r, s, b) →
      ∃ a, r = Except.ok a) := by
  obtain ⟨hsync, hidx⟩ := hwf
  have htot : ∃ trace p2 called,
      inner.request_poll.test native = some (trace, p2, called) := by
    by_cases hreq : inner.request_poll.requests = []
    · exact ⟨[], inner.request_poll, false, test_empty _ native hreq hidx⟩
    · obtain ⟨p2, hq, -, -, -, -⟩ :=
        test_nonempty _ native hreq hcnt hnd hlt hsync
      exact ⟨_, p2, true, hq⟩
  obtain ⟨trace, p2, called, htest⟩ := htot
  refine ⟨fun hstop => by simp [Switch.poll, hstop], fun hstop => ?_, ?_⟩
  · exact ⟨trace, p2, called, htest, by simp [Switch.poll, hstop, htest]⟩
  · intro r s b _
    cases r with
    | ok a => exact ⟨a, rfl⟩
    | error e => exact e.elim

theorem switch_poll_spec_witness :
    (false = true → Switch.poll ⟨⟨[], [], [], []⟩, false⟩ [] =
      some (Except.ok (Async.ready ()), ⟨⟨[], [], [], []⟩, false⟩, false)) ∧
    (false = false → ∃ trace p2 called,
      RequestPoll.test ⟨[], [], [], []⟩ [] = some (trace, p2, called) ∧
      Switch.poll ⟨⟨[], [], [], []⟩, false⟩ [] =
        some (Except.ok Async.notReady, ⟨p2, false⟩, true)) ∧
    (∀ r s b, Switch.poll ⟨⟨[], [], [], []⟩, false⟩ [] = some (r, s, b) →
      ∃ a, r = Except.ok a) :=
  switch_poll_spec ⟨⟨[], [], [], []⟩, false⟩ [] (by decide) (by simp)
    (by decide) (by decide)

/-- Claim C7: U8Codec submits exactly the message bytes with tag zero, its
decode allocates a receive buffer of exactly the element count carried by
the status, and encoding then decoding over a faithful transport is the
identity on the byte sequence. -/
theorem u8_codec_roundtrip (msg : List Nat) (status : Status) :
    U8Codec.encode msg = (msg, 0) ∧
    (U8Codec.decodeBuf status).length = status.count ∧
    u8Roundtrip msg = msg := by
  refine ⟨rfl, by simp [U8Codec.decodeBuf], ?_⟩
  simp [u8Roundtrip, U8Codec.encode, U8Codec.decodeBuf, recvFill]

/-- Claim C8: Link::close is idempotent, and on a Switch that is already
gone it is a no-op. -/
theorem close_idempotent (w : Option SwitchInner) :
    Link.close (Link.close w) = Link.close w ∧ Link.close none = none := by
  cases w <;> simp [Link.close]

/-- Claim C9: when the request vector is empty (the completed-indices cache
being drained, as it always is between sweeps), test and wait skip the
native test/wait call entirely (the Bool component is false) and leave every
field of the pool unchanged. -/
theorem empty_pool_test_wait_skip_native (p : RequestPoll)
    (native : List Nat) (hreq : p.requests = []) (hidx : p.indices = []) :
    p.test native = some ([], p, false) ∧
    p.wait native = some ([], p, false) :=
  ⟨test_empty p native hreq hidx,
   by rw [wait_eq_test]; exact test_empty p native hreq hidx⟩

theorem empty_pool_test_wait_skip_native_witness :
    RequestPoll.test ⟨[], [], [], []⟩ [9] =
      some ([], ⟨[], [], [], []⟩, false) ∧
    RequestPoll.wait ⟨[], [], [], []⟩ [9] =
      some ([], ⟨[], [], [], []⟩, false) :=
  empty_pool_test_wait_skip_native ⟨[], [], [], []⟩ [9] rfl rfl

/-- Claim C10: polling a FutureBuffer whose one-shot sender was dropped
without being invoked panics with the message "sender cancelled", in
contrast with the send future, whose poll_receiver treats the same one-shot
cancellation as success. -/
theorem future_buffer_cancel_panics :
    FutureBuffer.poll (OneshotPoll.canceled : OneshotPoll (List Nat)) =
      FuturePoll.panicked "sender cancelled" ∧
    poll_receiver OneshotPoll.canceled = Except.ok (Async.ready ()) :=
  ⟨rfl, rfl⟩
